import Mathlib

/-!
Verification of the FramePilot crop pipeline.

This file embeds the core of the repository in Lean 4:
* `src/crop_calculator.py` — subject selection and crop geometry,
* `src/xmp_handler.py` — XMP sidecar persistence,
* `src/gui/worker.py` — the per-file batch pipeline.

Python floats are idealised as exact rationals `ℚ`; machine integers as `Int`.
Python exceptions are modelled by `Except PyErr`.  A Python float division
`a / b` raises `ZeroDivisionError` when `b = 0`, which `pydiv` reproduces.
External collaborators (cv2, the YOLO detector, lxml parsing/serialisation)
are passed in as function parameters, exactly at the boundary the code calls
them.
-/

/-- Exceptions that the embedded code can raise. -/
inductive PyErr where
  | zeroDivision
  | valueError (msg : String)
deriving DecidableEq, Repr

/-- Message text carried by an exception, as Python `str(e)` produces it. -/
def pyErrMsg : PyErr → String
  | .zeroDivision => "division by zero"
  | .valueError m => m

/-- Python float division: raises `ZeroDivisionError` on a zero divisor. -/
def pydiv (a b : ℚ) : Except PyErr ℚ :=
  if b = 0 then Except.error PyErr.zeroDivision else Except.ok (a / b)

/-- Structure `Detection` from `src/detector.py`: a detected subject with a normalized
bounding box `(x1, y1, x2, y2)`, a confidence, a label and a sharpness score. -/
structure Detection where
  bbox : ℚ × ℚ × ℚ × ℚ
  confidence : ℚ
  label : String
  sharpness : ℚ := 0
deriving DecidableEq, Repr

namespace Detection

/-- The `Detection.width` property. -/
def width (d : Detection) : ℚ := d.bbox.2.2.1 - d.bbox.1

/-- The `Detection.height` property. -/
def height (d : Detection) : ℚ := d.bbox.2.2.2 - d.bbox.2.1

/-- The `Detection.area` property. -/
def area (d : Detection) : ℚ := d.width * d.height

/-- The `Detection.center` property. -/
def center (d : Detection) : ℚ × ℚ :=
  ((d.bbox.1 + d.bbox.2.2.1) / 2, (d.bbox.2.1 + d.bbox.2.2.2) / 2)

end Detection

/-- Structure `CropRegion` from `src/crop_calculator.py`: normalized crop rectangle. -/
structure CropRegion where
  left : ℚ
  right : ℚ
  top : ℚ
  bottom : ℚ
deriving DecidableEq, Repr

/-- Value `max(d.sharpness for d in detections)`; `0.0` on the empty list (the
source guards the empty case with `if detections else 0.0`). -/
def maxSharpness : List Detection → ℚ
  | [] => 0
  | d :: ds => ds.foldl (fun m e => max m e.sharpness) d.sharpness

/-- The inner `sharpness_factor` of `select_primary_subject`
(`src/crop_calculator.py` lines 82-91). -/
def sharpness_factor (max_sharpness : ℚ) (det : Detection) : ℚ :=
  if max_sharpness = 0 then 1
  else
    let relative := det.sharpness / max_sharpness
    if relative < 3/10 then relative * (1/2) else relative

/-- Exact stand-in for the float score `c * sqrt r` (with `r ≥ 0`): the map
`x ↦ x * |x|` is strictly monotone on ℝ and sends `c * sqrt r` to
`c * |c| * r`, so comparing these rational keys decides exactly the same
strict order as comparing the float scores.  See `sqrtMulKey_lt_iff`. -/
def sqrtMulKey (c r : ℚ) : ℚ := c * |c| * r

/-- Score key of strategy `"largest"`: the float score is
`d.area * sharpness_factor d ** 0.5` (line 96). -/
def largestKey (ms : ℚ) (d : Detection) : ℚ :=
  sqrtMulKey d.area (sharpness_factor ms d)

/-- Squared distance of a detection's center from the image center (the
float score of `"centered"` takes its square root, line 101). -/
def distSq (d : Detection) : ℚ :=
  (d.center.1 - 1/2) ^ 2 + (d.center.2 - 1/2) ^ 2

/-- Score key of strategy `"centered"`: the float score is
`-distance * (2.0 - sharpness_factor d)`, i.e.
`(sharpness_factor d - 2) * sqrt (distSq d)` (lines 99-104). -/
def centeredKey (ms : ℚ) (d : Detection) : ℚ :=
  sqrtMulKey (sharpness_factor ms d - 2) (distSq d)

/-- Score of strategy `"highest_confidence"`:
`d.confidence * sharpness_factor d` (line 109), exact in ℚ. -/
def confKey (ms : ℚ) (d : Detection) : ℚ :=
  d.confidence * sharpness_factor ms d

/-- Python's builtin `max(iterable, key=...)`: the running best is replaced
only when a later element's key is strictly greater, so the first element
attaining the maximal key wins.  `gt a b` decides `key a > key b`. -/
def pymax (gt : α → α → Bool) : α → List α → α
  | best, [] => best
  | best, x :: xs => pymax gt (if gt x best then x else best) xs

/-- Function `select_primary_subject` (`src/crop_calculator.py` lines 53-111).
Returns `none` on the empty list, the sole element of a singleton list
(both before any strategy dispatch), otherwise the `max` by the strategy's
score; an unknown strategy raises `ValueError`. -/
def select_primary_subject (detections : List Detection) (strategy : String) :
    Except PyErr (Option Detection) :=
  match detections with
  | [] => Except.ok none
  | [d] => Except.ok (some d)
  | d :: ds =>
    let ms := maxSharpness (d :: ds)
    if strategy = "largest" then
      Except.ok (some (pymax (fun a b => decide (largestKey ms b < largestKey ms a)) d ds))
    else if strategy = "centered" then
      Except.ok (some (pymax (fun a b => decide (centeredKey ms b < centeredKey ms a)) d ds))
    else if strategy = "highest_confidence" then
      Except.ok (some (pymax (fun a b => decide (confKey ms b < confKey ms a)) d ds))
    else
      Except.error (PyErr.valueError ("Unknown selection strategy: " ++ strategy))

/-- The strategy's score key as one function, for stating properties of the
selection uniformly. -/
def scoreKey (strategy : String) (ms : ℚ) (d : Detection) : ℚ :=
  if strategy = "largest" then largestKey ms d
  else if strategy = "centered" then centeredKey ms d
  else confKey ms d

/-- Second definition for the comparison claim C8, following the spec's
words: selection with the sharpness factor fixed at `1.0` for every
detection, i.e. `"largest"` by area (`area * 1 ** 0.5`), `"centered"` by
distance to the image center alone (`-distance * (2.0 - 1.0)`), and
`"highest_confidence"` by confidence (`confidence * 1.0`). -/
def select_ignoring_sharpness (detections : List Detection) (strategy : String) :
    Except PyErr (Option Detection) :=
  match detections with
  | [] => Except.ok none
  | [d] => Except.ok (some d)
  | d :: ds =>
    if strategy = "largest" then
      Except.ok (some (pymax (fun a b => decide (b.area < a.area)) d ds))
    else if strategy = "centered" then
      Except.ok (some (pymax (fun a b => decide (distSq a < distSq b)) d ds))
    else if strategy = "highest_confidence" then
      Except.ok (some (pymax (fun a b => decide (b.confidence < a.confidence)) d ds))
    else
      Except.error (PyErr.valueError ("Unknown selection strategy: " ++ strategy))

/-- The repeated clamp pattern of `calculate_vertical_crop`
(`if start < 0: start = 0 elif start + len > 1.0: start = 1.0 - len`,
lines 169-172, 178-181, 197-200). -/
def clampStart (c len : ℚ) : ℚ :=
  if c < 0 then 0 else if 1 < c + len then 1 - len else c

/-- Function `calculate_vertical_crop` (`src/crop_calculator.py` lines 114-211).
`tar` abbreviates the source's `target_aspect_ratio`. -/
def calculate_vertical_crop (image_width image_height : Int)
    (subject_bbox : ℚ × ℚ × ℚ × ℚ) (target_aspect : Int × Int)
    (padding : ℚ) : Except PyErr CropRegion := do
  let source_aspect ← pydiv (image_width : ℚ) (image_height : ℚ)
  let tar ← pydiv (target_aspect.1 : ℚ) (target_aspect.2 : ℚ)
  let subj_center_x := (subject_bbox.1 + subject_bbox.2.2.1) / 2
  let subj_center_y := (subject_bbox.2.1 + subject_bbox.2.2.2) / 2
  let subj_width := subject_bbox.2.2.1 - subject_bbox.1
  if tar < source_aspect then
    let crop_height : ℚ := 1
    let crop_width ← pydiv (crop_height * tar) source_aspect
    let min_crop_width := subj_width * (1 + 2 * padding)
    let wh ←
      if crop_width < min_crop_width ∧ min_crop_width ≤ 1 then do
        let ch ← pydiv (min_crop_width * source_aspect) tar
        if 1 < ch then do
          let cw ← pydiv ((1 : ℚ) * tar) source_aspect
          pure (cw, (1 : ℚ))
        else
          pure (min_crop_width, ch)
      else
        pure (crop_width, crop_height)
    let crop_left := clampStart (subj_center_x - wh.1 / 2) wh.1
    let crop_top := clampStart (subj_center_y - wh.2 / 2) wh.2
    pure { left := crop_left, right := crop_left + wh.1,
           top := crop_top, bottom := crop_top + wh.2 }
  else
    let crop_width : ℚ := 1
    let crop_height ← pydiv (crop_width * source_aspect) tar
    let wh ←
      if 1 < crop_height then do
        let cw ← pydiv ((1 : ℚ) * tar) source_aspect
        pure (cw, (1 : ℚ))
      else
        pure (crop_width, crop_height)
    let crop_top := clampStart (subj_center_y - wh.2 / 2) wh.2
    pure { left := 0, right := wh.1, top := crop_top, bottom := crop_top + wh.2 }

/-- Function `calculate_crop_for_detection` (`src/crop_calculator.py` lines 214-239). -/
def calculate_crop_for_detection (detection : Detection)
    (image_width image_height : Int) (target_aspect : Int × Int)
    (padding : ℚ) : Except PyErr CropRegion :=
  calculate_vertical_crop image_width image_height detection.bbox target_aspect padding

/-! ## Batch worker (`src/gui/worker.py`)

`cv2.imread` (returning the image's pixel dimensions, `none` on failure) and
`SubjectDetector.detect` (which may raise) are external collaborators and are
passed as parameters. -/

/-- Structure `ProcessingResult` from `src/gui/worker.py` (statuses are the strings
`"pending"`, `"success"`, `"no_subject"`, `"error"`). -/
structure ProcessingResult where
  file_path : String
  status : String
  detections : List Detection := []
  primary_detection : Option Detection := none
  crop : Option CropRegion := none
  error_message : String := ""
  image_size : Int × Int := (0, 0)
deriving DecidableEq, Repr

/-- Method `ProcessingWorker._process_single_file` (lines 122-170): the whole
per-file pipeline runs inside one `try`, and any raise is converted into a
`status="error"` result carrying `str(e)`; fields assigned before the raise
(image size, detection list, primary detection) are kept, as in the source's
in-place mutation of `result`. -/
def process_single_file (imread : String → Option (Int × Int))
    (detect : String → Except String (List Detection))
    (file_path : String) (aspect_ratio : Int × Int) (padding : ℚ)
    (strategy : String) : ProcessingResult :=
  match imread file_path with
  | none =>
    { file_path := file_path, status := "error", error_message := "Failed to load image" }
  | some wh =>
    match detect file_path with
    | Except.error e =>
      { file_path := file_path, status := "error", error_message := e, image_size := wh }
    | Except.ok detections =>
      if detections.isEmpty then
        { file_path := file_path, status := "no_subject", detections := detections,
          image_size := wh }
      else
        match select_primary_subject detections strategy with
        | Except.error e =>
          { file_path := file_path, status := "error", error_message := pyErrMsg e,
            detections := detections, image_size := wh }
        | Except.ok none =>
          { file_path := file_path, status := "error",
            error_message := "NoneType object has no attribute bbox",
            detections := detections, image_size := wh }
        | Except.ok (some primary) =>
          match calculate_crop_for_detection primary wh.1 wh.2 aspect_ratio padding with
          | Except.error e =>
            { file_path := file_path, status := "error", error_message := pyErrMsg e,
              detections := detections, primary_detection := some primary, image_size := wh }
          | Except.ok crop =>
            { file_path := file_path, status := "success", detections := detections,
              primary_detection := some primary, crop := some crop, image_size := wh }

/-- The loop body of `_process_files` (lines 102-114): `cancel i` is the
state of the cancellation flag read before starting file `i`; once it is
set, no further file is processed. -/
def process_files_go (imread : String → Option (Int × Int))
    (detect : String → Except String (List Detection))
    (aspect_ratio : Int × Int) (padding : ℚ) (strategy : String)
    (cancel : Nat → Bool) : Nat → List String → List ProcessingResult
  | _, [] => []
  | i, f :: rest =>
    if cancel i then []
    else
      process_single_file imread detect f aspect_ratio padding strategy ::
        process_files_go imread detect aspect_ratio padding strategy cancel (i + 1) rest

/-- Method `ProcessingWorker._process_files` (lines 88-120), restricted to the list
of results it accumulates and hands to `on_complete`. -/
def process_files (imread : String → Option (Int × Int))
    (detect : String → Except String (List Detection))
    (cancel : Nat → Bool) (files : List String)
    (aspect_ratio : Int × Int) (padding : ℚ) (strategy : String) :
    List ProcessingResult :=
  process_files_go imread detect aspect_ratio padding strategy cancel 0 files

/-! ## XMP sidecar persistence (`src/xmp_handler.py`)

XML documents are modelled as first-child / next-sibling trees (isomorphic to
ordered forests of elements and comments); tags and attribute names use
lxml's Clark notation `{namespace}name`.  lxml's parser and serialiser are
external collaborators passed in as parameters where the source calls them. -/

/-- An XML tree in first-child / next-sibling form. -/
inductive XmlTree where
  | nil
  | elem (tag : String) (attrs : List (String × String)) (child sib : XmlTree)
  | comment (text : String) (sib : XmlTree)
deriving DecidableEq, Repr

/-- Namespace `NAMESPACES["rdf"]`. -/
def rdfNS : String := "http://www.w3.org/1999/02/22-rdf-syntax-ns#"

/-- Namespace `NAMESPACES["crs"]`. -/
def crsNS : String := "http://ns.adobe.com/camera-raw-settings/1.0/"

/-- Clark notation for a namespaced name, as lxml spells it:
`"{" + namespace + "}" + name`. -/
def clark (ns name : String) : String := "\x7b" ++ ns ++ "\x7d" ++ name

/-- The tag of `rdf:Description` elements. -/
def descTag : String := clark rdfNS "Description"

/-- A `crs:`-namespaced attribute name (`crs_ns + name` in the source). -/
def crsName (name : String) : String := clark crsNS name

/-- Test `attr.startswith` with the `crs` Clark mark over a whole attribute
list (the inner loop of `update_xmp_crop`, lines 114-121). -/
def hasCrsAttr (attrs : List (String × String)) : Bool :=
  attrs.any fun kv => (clark crsNS "").isPrefixOf kv.1

/-- lxml `Element.set`: replace the value if the attribute exists (keeping
its position), else append the attribute at the end. -/
def setAttr : List (String × String) → String → String → List (String × String)
  | [], k, v => [(k, v)]
  | (k', v') :: rest, k, v =>
    if k' = k then (k, v) :: rest else (k', v') :: setAttr rest k v

/-- Python `f"{q:.6f}"` on our exact rationals: fixed-point rendering with
six digits after the point (ties rounded up); `n` is
`⌊|q| * 1000000 + 1/2⌋` computed on the reduced numerator and denominator,
so that the definition evaluates by kernel reduction. -/
def fmt6 (q : ℚ) : String :=
  let n : Nat := (2 * q.num.natAbs * 1000000 + q.den) / (2 * q.den)
  let ip := n / 1000000
  let fp := n % 1000000
  let fpStr := toString fp
  (if q.num < 0 then "-" else "") ++ toString ip ++ "." ++
    (List.replicate (6 - fpStr.length) '0').asString ++ fpStr

/-- The six attribute assignments of `update_xmp_crop` (lines 132-137), in
source order. -/
def setCropAttrs (crop : CropRegion) (attrs : List (String × String)) :
    List (String × String) :=
  setAttr (setAttr (setAttr (setAttr (setAttr (setAttr attrs
    (crsName "HasCrop") "True")
    (crsName "CropTop") (fmt6 crop.top))
    (crsName "CropLeft") (fmt6 crop.left))
    (crsName "CropBottom") (fmt6 crop.bottom))
    (crsName "CropRight") (fmt6 crop.right))
    (crsName "CropAngle") "0"

/-- The attribute names `update_xmp_crop` sets. -/
def cropAttrNames : List String :=
  [crsName "HasCrop", crsName "CropTop", crsName "CropLeft",
   crsName "CropBottom", crsName "CropRight", crsName "CropAngle"]

/-- Query `root.xpath` for `rdf:Description`: the attribute lists of all
`rdf:Description` elements, in document (preorder) order. -/
def xpathDescriptions : XmlTree → List (List (String × String))
  | XmlTree.nil => []
  | XmlTree.comment _ sib => xpathDescriptions sib
  | XmlTree.elem t a c s =>
    (if t = descTag then [a] else []) ++ xpathDescriptions c ++ xpathDescriptions s

/-- Apply `f` to the attributes of the `k`-th `rdf:Description` element in
document order (counting from `cnt`); returns the new tree and the updated
count. -/
def updNthDesc (f : List (String × String) → List (String × String)) :
    XmlTree → Nat → Nat → XmlTree × Nat
  | XmlTree.nil, cnt, _ => (XmlTree.nil, cnt)
  | XmlTree.comment s sib, cnt, k =>
    let r := updNthDesc f sib cnt k
    (XmlTree.comment s r.1, r.2)
  | XmlTree.elem t a c s, cnt, k =>
    if t = descTag then
      let a' := if cnt = k then f a else a
      let rc := updNthDesc f c (cnt + 1) k
      let rs := updNthDesc f s rc.2 k
      (XmlTree.elem t a' rc.1 rs.1, rs.2)
    else
      let rc := updNthDesc f c cnt k
      let rs := updNthDesc f s rc.2 k
      (XmlTree.elem t a rc.1 rs.1, rs.2)

/-- Function `update_xmp_crop` (`src/xmp_handler.py` lines 93-139): among all
`rdf:Description` elements pick the first carrying a `crs:` attribute (else
the first one), and set the six crop attributes on it.  Raises `ValueError`
when the document has no `rdf:Description`. -/
def update_xmp_crop (root : XmlTree) (crop : CropRegion) : Except PyErr XmlTree :=
  let descs := xpathDescriptions root
  if descs.isEmpty then
    Except.error (PyErr.valueError "No rdf:Description element found in XMP")
  else
    let k := (descs.findIdx? hasCrsAttr).getD 0
    Except.ok (updNthDesc (setCropAttrs crop) root 0 k).1

/-- The first line of `XMP_TEMPLATE`, also the wrapper prepended by
`write_crop_to_xmp` (lines 197-198). -/
def xpacketHeaderStr : String :=
  "<?xpacket begin=\"﻿\" id=\"W5M0MpCehiHzreSzNTczkc9d\"?>\n"

/-- The last line of `XMP_TEMPLATE` and of the wrapper (line 200). -/
def xpacketFooterStr : String := "<?xpacket end=\"w\"?>"

/-- Function `create_xmp_from_template` (lines 76-90): `XMP_TEMPLATE` with the four
crop values formatted to six decimals. -/
def create_xmp_from_template (crop : CropRegion) : String :=
  xpacketHeaderStr ++
  "<x:xmpmeta xmlns:x=\"adobe:ns:meta/\" x:xmptk=\"Lightroom Subject Crop\">\n" ++
  "  <rdf:RDF xmlns:rdf=\"http://www.w3.org/1999/02/22-rdf-syntax-ns#\">\n" ++
  "    <rdf:Description rdf:about=\"\"\n" ++
  "      xmlns:crs=\"http://ns.adobe.com/camera-raw-settings/1.0/\"\n" ++
  "      crs:Version=\"15.0\"\n" ++
  "      crs:ProcessVersion=\"11.0\"\n" ++
  "      crs:HasCrop=\"True\"\n" ++
  "      crs:CropTop=\"" ++ fmt6 crop.top ++ "\"\n" ++
  "      crs:CropLeft=\"" ++ fmt6 crop.left ++ "\"\n" ++
  "      crs:CropBottom=\"" ++ fmt6 crop.bottom ++ "\"\n" ++
  "      crs:CropRight=\"" ++ fmt6 crop.right ++ "\"\n" ++
  "      crs:CropAngle=\"0\"\n" ++
  "      crs:CropConstrainToWarp=\"0\">\n" ++
  "    </rdf:Description>\n" ++
  "  </rdf:RDF>\n" ++
  "</x:xmpmeta>\n" ++
  xpacketFooterStr

/-- Function `get_xmp_path` (lines 42-52): `with_suffix(suffix + ".xmp")` appends
`.xmp` to the file name. -/
def get_xmp_path (image_path : String) : String := image_path ++ ".xmp"

/-- The file system as a map from paths to byte contents (directory
creation and permissions are outside the model). -/
abbrev FS := String → Option String

/-- Write one file. -/
def setFile (fs : FS) (p content : String) : FS :=
  fun q => if q = p then some content else fs q

/-- Value `image_path.stem + image_path.suffix`: the file name part of a path. -/
def baseName (p : String) : String := (p.splitOn "/").getLastD p

/-- The destination the sidecar is written to (lines 164-171): inside
`output_dir` when one is given, else next to the image. -/
def xmpDest (image_path : String) (output_dir : Option String) : String :=
  match output_dir with
  | some d => d ++ "/" ++ (baseName image_path ++ ".xmp")
  | none => get_xmp_path image_path

/-- Whether `p` occurs as a contiguous sublist of the second list. -/
def hasSubList (p : List Char) : List Char → Bool
  | [] => p.isPrefixOf []
  | c :: t => p.isPrefixOf (c :: t) || hasSubList p t

/-- Python's substring test `pat in s`. -/
def occursSub (pat s : String) : Bool := hasSubList pat.data s.data

/-- Function `write_crop_to_xmp` (`src/xmp_handler.py` lines 142-210).  `parseX` is
lxml's `etree.fromstring` (with `remove_blank_text=True`) and `serializeX`
is `etree.tostring(..., xml_declaration=True, encoding="UTF-8",
pretty_print=True).decode()`.  Returns the updated file system and the path
written. -/
def write_crop_to_xmp (parseX : String → Except PyErr XmlTree)
    (serializeX : XmlTree → String) (fs : FS) (image_path : String)
    (crop : CropRegion) (output_dir : Option String) (backup : Bool) :
    Except PyErr (FS × String) :=
  let xmp_path := xmpDest image_path output_dir
  let existing_xmp_path := get_xmp_path image_path
  match fs existing_xmp_path with
  | some content => do
    let existing ← parseX content
    let fs1 := if backup then setFile fs (existing_xmp_path ++ ".bak") content else fs
    let updated ← update_xmp_crop existing crop
    let body := serializeX updated
    let xmp_content :=
      if occursSub "<?xpacket" body then body
      else xpacketHeaderStr ++ body ++ "\n" ++ xpacketFooterStr
    Except.ok (setFile fs1 xmp_path xmp_content, xmp_path)
  | none =>
    Except.ok (setFile fs xmp_path (create_xmp_from_template crop), xmp_path)

deriving instance DecidableEq for Except

/-- The pure value `calculate_vertical_crop` computes once both divisions
`source_aspect = w/h` and `tar = target_w/target_h` are known to succeed
(used to state and prove its properties without the exception plumbing). -/
def cropPure (source_aspect tar : ℚ) (subject_bbox : ℚ × ℚ × ℚ × ℚ)
    (padding : ℚ) : CropRegion :=
  let subj_center_x := (subject_bbox.1 + subject_bbox.2.2.1) / 2
  let subj_center_y := (subject_bbox.2.1 + subject_bbox.2.2.2) / 2
  let subj_width := subject_bbox.2.2.1 - subject_bbox.1
  if tar < source_aspect then
    let crop_width := 1 * tar / source_aspect
    let min_crop_width := subj_width * (1 + 2 * padding)
    let wh :=
      if crop_width < min_crop_width ∧ min_crop_width ≤ 1 then
        let ch := min_crop_width * source_aspect / tar
        if 1 < ch then (1 * tar / source_aspect, (1 : ℚ))
        else (min_crop_width, ch)
      else (crop_width, (1 : ℚ))
    let crop_left := clampStart (subj_center_x - wh.1 / 2) wh.1
    let crop_top := clampStart (subj_center_y - wh.2 / 2) wh.2
    { left := crop_left, right := crop_left + wh.1,
      top := crop_top, bottom := crop_top + wh.2 }
  else
    let crop_height := 1 * source_aspect / tar
    let wh :=
      if 1 < crop_height then (1 * tar / source_aspect, (1 : ℚ))
      else ((1 : ℚ), crop_height)
    let crop_top := clampStart (subj_center_y - wh.2 / 2) wh.2
    { left := 0, right := wh.1, top := crop_top, bottom := crop_top + wh.2 }

/-- Relation stating that `root'` arises from `root` by replacing the attribute list of exactly one
`rdf:Description` element with `f` of it; every other element, attribute and
comment of the tree is syntactically unchanged. -/
inductive UpdOne (f : List (String × String) → List (String × String)) :
    XmlTree → XmlTree → Prop where
  | here (t : String) (a : List (String × String)) (c s : XmlTree)
      (ht : t = descTag) :
      UpdOne f (XmlTree.elem t a c s) (XmlTree.elem t (f a) c s)
  | child (t : String) (a : List (String × String)) (c c' s : XmlTree)
      (h : UpdOne f c c') :
      UpdOne f (XmlTree.elem t a c s) (XmlTree.elem t a c' s)
  | sib (t : String) (a : List (String × String)) (c s s' : XmlTree)
      (h : UpdOne f s s') :
      UpdOne f (XmlTree.elem t a c s) (XmlTree.elem t a c s')
  | csib (x : String) (s s' : XmlTree) (h : UpdOne f s s') :
      UpdOne f (XmlTree.comment x s) (XmlTree.comment x s')

/-! ### Concrete inputs used by witnesses and counterexamples -/

/-- A concrete crop region (left 0.2, right 0.8, full height). -/
def crop0 : CropRegion := ⟨mkRat 1 5, mkRat 4 5, mkRat 0 1, mkRat 1 1⟩

/-- A full-frame, half-confidence detection. -/
def dA : Detection := ⟨(0, 0, 1, 1), 1/2, "person", 0⟩

/-- A quarter-frame, high-confidence detection. -/
def dB : Detection := ⟨(0, 0, 1/2, 1/2), 9/10, "person", 0⟩

/-- A stub `cv2.imread` that reports a 6000×4000 image for every path. -/
def imread0 : String → Option (Int × Int) := fun _ => some (6000, 4000)

/-- A stub detector that raises on `b.jpg` and detects `dA` elsewhere. -/
def detect0 : String → Except String (List Detection) := fun s =>
  if s = "b.jpg" then Except.error "detection failed" else Except.ok [dA]

/-- A one-element XMP document: a bare `rdf:Description`. -/
def tW : XmlTree := XmlTree.elem descTag [] XmlTree.nil XmlTree.nil

/-- Tree `tW` after the crop update with `crop0`. -/
def tW' : XmlTree := XmlTree.elem descTag (setCropAttrs crop0 []) XmlTree.nil XmlTree.nil

/-- A stub lxml parser returning `tW` for every input. -/
def parseW : String → Except PyErr XmlTree := fun _ => Except.ok tW

/-- A stub lxml serialiser: a fixed document that starts with the XML
declaration and contains no xpacket instruction, like `etree.tostring`
output with `xml_declaration=True`. -/
def serializeW : XmlTree → String :=
  fun _ => "<?xml version=\"1.0\" encoding=\"UTF-8\"?>\n<x/>"

/-- A description element with one pre-existing attribute, as a witness
document for the update. -/
def rootEx : XmlTree :=
  XmlTree.elem descTag [("keep", "me")]
    (XmlTree.comment "unrelated comment" XmlTree.nil) XmlTree.nil

/-- Tree `rootEx` after the crop update with `crop0`. -/
def rootEx' : XmlTree :=
  XmlTree.elem descTag (setCropAttrs crop0 [("keep", "me")])
    (XmlTree.comment "unrelated comment" XmlTree.nil) XmlTree.nil

/-! ## Supporting lemmas: `pymax` and score keys -/

theorem pymax_mem (gt : α → α → Bool) (x : α) (xs : List α) :
    pymax gt x xs ∈ x :: xs := by
  induction xs generalizing x with
  | nil => simp [pymax]
  | cons y ys ih =>
    have h := ih (if gt y x then y else x)
    simp only [pymax]
    by_cases hyx : gt y x
    · simp only [hyx, if_true] at h ⊢
      rcases List.mem_cons.mp h with h1 | h1
      · rw [h1]; exact List.mem_cons.mpr (Or.inr (List.mem_cons_self y ys))
      · exact List.mem_cons.mpr (Or.inr (List.mem_cons.mpr (Or.inr h1)))
    · simp only [hyx, if_false] at h ⊢
      rcases List.mem_cons.mp h with h1 | h1
      · rw [h1]; exact List.mem_cons_self x (y :: ys)
      · exact List.mem_cons.mpr (Or.inr (List.mem_cons.mpr (Or.inr h1)))

theorem pymax_congr (gt₁ gt₂ : α → α → Bool) (h : ∀ a b, gt₁ a b = gt₂ a b)
    (x : α) (xs : List α) : pymax gt₁ x xs = pymax gt₂ x xs := by
  induction xs generalizing x with
  | nil => rfl
  | cons y ys ih => simp only [pymax, h]; exact ih _

theorem pymax_first_argmax (gt : α → α → Bool)
    (irrefl : ∀ a, gt a a = false)
    (trans : ∀ a b c, gt a b = true → gt b c = true → gt a c = true)
    (ntrans : ∀ a b c, gt a b = false → gt b c = false → gt a c = false)
    (x : α) (xs : List α) :
    ∃ l₁ l₂, x :: xs = l₁ ++ pymax gt x xs :: l₂ ∧
      (∀ y ∈ x :: xs, gt y (pymax gt x xs) = false) ∧
      (∀ y ∈ l₁, gt (pymax gt x xs) y = true) := by
  induction xs generalizing x with
  | nil =>
    refine ⟨[], [], rfl, ?_, ?_⟩
    · intro y hy
      rcases List.mem_cons.mp hy with rfl | h1
      · exact irrefl y
      · cases h1
    · intro y hy; cases hy
  | cons y ys ih =>
    by_cases hyx : gt y x
    · have hpm : pymax gt x (y :: ys) = pymax gt y ys := by
        simp only [pymax, hyx, if_true]
      obtain ⟨l₁, l₂, heq, hmax, hfirst⟩ := ih y
      refine ⟨x :: l₁, l₂, ?_, ?_, ?_⟩
      · rw [hpm, List.cons_append, ← heq]
      · intro z hz
        rw [hpm]
        rcases List.mem_cons.mp hz with rfl | hz'
        · cases hgx : gt z (pymax gt y ys) with
          | false => rfl
          | true =>
            have hyr := trans y z _ hyx hgx
            rw [hmax y (List.mem_cons_self y ys)] at hyr
            cases hyr
        · exact hmax z hz'
      · intro z hz
        rw [hpm]
        rcases List.mem_cons.mp hz with rfl | hz'
        · rcases l₁ with _ | ⟨w, l₁'⟩
          · have hr : y = pymax gt y ys := by
              have := heq
              rw [List.nil_append] at this
              exact (List.cons.injEq _ _ _ _).mp this |>.1
            rw [← hr]; exact hyx
          · have hw : y = w := by
              rw [List.cons_append] at heq
              exact (List.cons.injEq _ _ _ _).mp heq |>.1
            have hgy := hfirst w (List.mem_cons_self w l₁')
            rw [← hw] at hgy
            exact trans _ y z hgy hyx
        · exact hfirst z hz'
    · have hyx' : gt y x = false := eq_false_of_ne_true hyx
      have hpm : pymax gt x (y :: ys) = pymax gt x ys := by
        simp [pymax, hyx']
      obtain ⟨l₁, l₂, heq, hmax, hfirst⟩ := ih x
      rcases l₁ with _ | ⟨w, l₁'⟩
      · have hr : x = pymax gt x ys := by
          rw [List.nil_append] at heq
          exact (List.cons.injEq _ _ _ _).mp heq |>.1
        refine ⟨[], y :: ys, ?_, ?_, ?_⟩
        · rw [hpm, ← hr, List.nil_append]
        · intro z hz
          rw [hpm, ← hr]
          rcases List.mem_cons.mp hz with rfl | hz'
          · rw [← hr] at hmax
            exact hmax z (List.mem_cons_self z ys)
          · rcases List.mem_cons.mp hz' with rfl | hz''
            · exact hyx'
            · rw [← hr] at hmax
              exact hmax z (List.mem_cons.mpr (Or.inr hz''))
        · intro z hz; cases hz
      · have hw : x = w := by
          rw [List.cons_append] at heq
          exact (List.cons.injEq _ _ _ _).mp heq |>.1
        have hys : ys = l₁' ++ pymax gt x ys :: l₂ := by
          rw [List.cons_append] at heq
          exact (List.cons.injEq _ _ _ _).mp heq |>.2
        have hxl : x ∈ w :: l₁' := hw ▸ List.mem_cons_self w l₁'
        refine ⟨x :: y :: l₁', l₂, ?_, ?_, ?_⟩
        · rw [hpm, List.cons_append, List.cons_append, ← hys]
        · intro z hz
          rw [hpm]
          rcases List.mem_cons.mp hz with rfl | hz'
          · exact hmax z (List.mem_cons_self z ys)
          · rcases List.mem_cons.mp hz' with rfl | hz''
            · exact ntrans z x _ hyx' (hmax x (List.mem_cons_self x ys))
            · exact hmax z (List.mem_cons.mpr (Or.inr hz''))
        · intro z hz
          rw [hpm]
          rcases List.mem_cons.mp hz with rfl | hz'
          · exact hfirst z hxl
          · rcases List.mem_cons.mp hz' with rfl | hz''
            · cases hry : gt (pymax gt x ys) z with
              | true => rfl
              | false =>
                have hrx := ntrans _ z x hry hyx'
                rw [hfirst x hxl] at hrx
                cases hrx
            · exact hfirst z (List.mem_cons.mpr (Or.inr hz''))

theorem mul_abs_strictMono {α : Type*} [LinearOrderedField α] :
    StrictMono (fun x : α => x * |x|) := by
  intro x y h
  simp only
  rcases le_or_lt 0 x with hx | hx
  · rw [abs_of_nonneg hx, abs_of_nonneg (le_trans hx h.le)]
    exact mul_self_lt_mul_self hx h
  · rcases le_or_lt 0 y with hy | hy
    · have hxx : (0 : α) < -x * -x := mul_pos (neg_pos.mpr hx) (neg_pos.mpr hx)
      have h1 : x * |x| < 0 := by rw [abs_of_neg hx]; nlinarith
      have h2 : 0 ≤ y * |y| := mul_nonneg hy (abs_nonneg y)
      linarith
    · have hyy := mul_self_lt_mul_self (neg_nonneg.mpr hy.le) (neg_lt_neg h)
      rw [abs_of_neg hx, abs_of_neg hy]
      nlinarith [hyy]

theorem mul_abs_lt_iff (a b : ℚ) : a * |a| < b * |b| ↔ a < b := by
  have h := (mul_abs_strictMono (α := ℚ)).lt_iff_lt (a := a) (b := b)
  simpa using h

/-- Faithfulness of the rational keys: for `r ≥ 0`, comparing
`sqrtMulKey c r = c * |c| * r` decides exactly the order of the real scores
`c * sqrt r` computed by the source. -/
theorem sqrtMulKey_lt_iff (c₁ r₁ c₂ r₂ : ℚ) (h₁ : 0 ≤ r₁) (h₂ : 0 ≤ r₂) :
    sqrtMulKey c₁ r₁ < sqrtMulKey c₂ r₂ ↔
      (c₁ : ℝ) * Real.sqrt r₁ < (c₂ : ℝ) * Real.sqrt r₂ := by
  have key : ∀ (c r : ℚ), 0 ≤ r →
      ((sqrtMulKey c r : ℚ) : ℝ) =
        ((c : ℝ) * Real.sqrt r) * |(c : ℝ) * Real.sqrt r| := by
    intro c r hr
    have hr' : (0 : ℝ) ≤ (r : ℝ) := by exact_mod_cast hr
    rw [abs_mul, abs_of_nonneg (Real.sqrt_nonneg _), sqrtMulKey]
    push_cast
    calc (c : ℝ) * |(c : ℝ)| * (r : ℝ)
        = (c : ℝ) * |(c : ℝ)| * (Real.sqrt r * Real.sqrt r) := by
          rw [Real.mul_self_sqrt hr']
      _ = (c : ℝ) * Real.sqrt r * ((|(c : ℝ)|) * Real.sqrt r) := by ring
  constructor
  · intro h
    have hcast : ((sqrtMulKey c₁ r₁ : ℚ) : ℝ) < ((sqrtMulKey c₂ r₂ : ℚ) : ℝ) := by
      exact_mod_cast h
    rw [key _ _ h₁, key _ _ h₂] at hcast
    exact mul_abs_strictMono.lt_iff_lt.mp hcast
  · intro h
    have hcast : ((sqrtMulKey c₁ r₁ : ℚ) : ℝ) < ((sqrtMulKey c₂ r₂ : ℚ) : ℝ) := by
      rw [key _ _ h₁, key _ _ h₂]
      exact mul_abs_strictMono.lt_iff_lt.mpr h
    exact_mod_cast hcast

theorem distSq_nonneg (d : Detection) : 0 ≤ distSq d := by
  unfold distSq; positivity

theorem sharpness_factor_nonneg (ms : ℚ) (d : Detection)
    (hms : 0 ≤ ms) (hd : 0 ≤ d.sharpness) : 0 ≤ sharpness_factor ms d := by
  simp only [sharpness_factor]
  split_ifs with h1 h2
  · norm_num
  · exact mul_nonneg (div_nonneg hd hms) (by norm_num)
  · exact div_nonneg hd hms

/-- Faithfulness of `largestKey`: comparing keys is comparing the source's
float scores `area * sharpness_factor ** 0.5`. -/
theorem largestKey_lt_iff (ms : ℚ) (d e : Detection)
    (hd : 0 ≤ sharpness_factor ms d) (he : 0 ≤ sharpness_factor ms e) :
    largestKey ms d < largestKey ms e ↔
      (d.area : ℝ) * Real.sqrt (sharpness_factor ms d) <
        (e.area : ℝ) * Real.sqrt (sharpness_factor ms e) :=
  sqrtMulKey_lt_iff _ _ _ _ hd he

/-- Faithfulness of `centeredKey`: comparing keys is comparing the source's
float scores `-distance * (2.0 - sharpness_factor)`. -/
theorem centeredKey_lt_iff (ms : ℚ) (d e : Detection) :
    centeredKey ms d < centeredKey ms e ↔
      -Real.sqrt (distSq d) * (2 - (sharpness_factor ms d : ℝ)) <
        -Real.sqrt (distSq e) * (2 - (sharpness_factor ms e : ℝ)) := by
  have h := sqrtMulKey_lt_iff (sharpness_factor ms d - 2) (distSq d)
    (sharpness_factor ms e - 2) (distSq e) (distSq_nonneg d) (distSq_nonneg e)
  rw [centeredKey, centeredKey, h]
  push_cast
  constructor <;> intro h1 <;> nlinarith [h1]

theorem foldl_max_zero (ds : List Detection) (h : ∀ d ∈ ds, d.sharpness = 0) :
    ds.foldl (fun m e => max m e.sharpness) 0 = 0 := by
  induction ds with
  | nil => rfl
  | cons e es ih =>
    rw [List.foldl_cons, h e (List.mem_cons_self e es), max_self]
    exact ih (fun d hd => h d (List.mem_cons.mpr (Or.inr hd)))

theorem maxSharpness_eq_zero (l : List Detection) (h : ∀ d ∈ l, d.sharpness = 0) :
    maxSharpness l = 0 := by
  cases l with
  | nil => rfl
  | cons d ds =>
    rw [maxSharpness, h d (List.mem_cons_self d ds)]
    exact foldl_max_zero ds (fun e he => h e (List.mem_cons.mpr (Or.inr he)))

/-- C7 counterexample: on the empty detection list an unknown strategy does
not raise — the empty-list early return precedes the strategy dispatch, so
the claim "for every detection list" is false. -/
theorem unknown_strategy_empty_no_error :
    select_primary_subject [] "bogus" = Except.ok none := rfl

/-- C7 (amended): for detection lists with at least two elements, a strategy
other than the three known ones raises `ValueError` with the source's
message; it never falls back to a default. -/
theorem unknown_strategy_raises (dets : List Detection) (strategy : String)
    (h2 : 2 ≤ dets.length)
    (hL : strategy ≠ "largest") (hC : strategy ≠ "centered")
    (hH : strategy ≠ "highest_confidence") :
    select_primary_subject dets strategy =
      Except.error (PyErr.valueError ("Unknown selection strategy: " ++ strategy)) := by
  match dets with
  | [] => norm_num at h2
  | [d] => norm_num at h2
  | d :: e :: rest =>
    simp only [select_primary_subject, if_neg hL, if_neg hC, if_neg hH]

theorem unknown_strategy_raises_witness :
    2 ≤ ([dA, dB] : List Detection).length ∧
    select_primary_subject [dA, dB] "bogus" =
      Except.error (PyErr.valueError ("Unknown selection strategy: " ++ "bogus")) :=
  ⟨by norm_num,
   unknown_strategy_raises [dA, dB] "bogus" (by norm_num)
     (by decide) (by decide) (by decide)⟩

/-- C8: when every detection has sharpness 0, `maxSharpness` is 0, every
sharpness factor is defined as 1, and for each strategy the selection agrees
with the spec-side selection that ignores sharpness entirely. -/
theorem select_sharpness_zero_invariant (dets : List Detection)
    (h : ∀ d ∈ dets, d.sharpness = 0) (strategy : String) :
    select_primary_subject dets strategy = select_ignoring_sharpness dets strategy := by
  match dets with
  | [] => rfl
  | [d] => rfl
  | d :: e :: rest =>
    have hms : maxSharpness (d :: e :: rest) = 0 := maxSharpness_eq_zero _ h
    have hfac : ∀ x : Detection,
        sharpness_factor (maxSharpness (d :: e :: rest)) x = 1 := by
      intro x; rw [hms]; simp [sharpness_factor]
    have hL : ∀ a b : Detection,
        decide (largestKey (maxSharpness (d :: e :: rest)) b <
          largestKey (maxSharpness (d :: e :: rest)) a) = decide (b.area < a.area) := by
      intro a b
      have hk : ∀ x : Detection,
          largestKey (maxSharpness (d :: e :: rest)) x = x.area * |x.area| := by
        intro x; rw [largestKey, sqrtMulKey, hfac, mul_one]
      rw [hk, hk]
      exact decide_eq_decide.mpr (mul_abs_lt_iff b.area a.area)
    have hC : ∀ a b : Detection,
        decide (centeredKey (maxSharpness (d :: e :: rest)) b <
          centeredKey (maxSharpness (d :: e :: rest)) a) = decide (distSq a < distSq b) := by
      intro a b
      have hk : ∀ x : Detection,
          centeredKey (maxSharpness (d :: e :: rest)) x = -distSq x := by
        intro x; rw [centeredKey, sqrtMulKey, hfac]; norm_num
      rw [hk, hk]
      exact decide_eq_decide.mpr neg_lt_neg_iff
    have hH : ∀ a b : Detection,
        decide (confKey (maxSharpness (d :: e :: rest)) b <
          confKey (maxSharpness (d :: e :: rest)) a) =
          decide (b.confidence < a.confidence) := by
      intro a b
      rw [confKey, confKey, hfac, hfac, mul_one, mul_one]
    simp only [select_primary_subject, select_ignoring_sharpness]
    split_ifs
    · rw [pymax_congr _ _ hL d (e :: rest)]
    · rw [pymax_congr _ _ hC d (e :: rest)]
    · rw [pymax_congr _ _ hH d (e :: rest)]
    · rfl

theorem select_sharpness_zero_invariant_witness :
    (∀ d ∈ [dA, dB], d.sharpness = 0) ∧
    select_primary_subject [dA, dB] "largest" =
      select_ignoring_sharpness [dA, dB] "largest" := by
  have hz : ∀ d ∈ [dA, dB], d.sharpness = 0 := by
    intro d hd
    rcases List.mem_cons.mp hd with rfl | hd'
    · rfl
    · rcases List.mem_cons.mp hd' with rfl | hd''
      · rfl
      · cases hd''
  exact ⟨hz, select_sharpness_zero_invariant [dA, dB] hz "largest"⟩

/-- C9: the selection never fabricates a detection — the empty list yields
`none`, a singleton yields its element for every strategy string (the
dispatch is bypassed), and for a valid strategy on a non-empty list the
result is a member of the input. -/
theorem select_returns_member (dets : List Detection) (strategy : String) :
    (dets = [] → select_primary_subject dets strategy = Except.ok none) ∧
    (∀ d, dets = [d] → select_primary_subject dets strategy = Except.ok (some d)) ∧
    (dets ≠ [] →
      (strategy = "largest" ∨ strategy = "centered" ∨ strategy = "highest_confidence") →
      ∃ d ∈ dets, select_primary_subject dets strategy = Except.ok (some d)) := by
  refine ⟨?_, ?_, ?_⟩
  · rintro rfl; rfl
  · rintro d rfl; rfl
  · intro hne hval
    match dets with
    | [] => exact absurd rfl hne
    | [d] => exact ⟨d, List.mem_cons_self d [], rfl⟩
    | d :: e :: rest =>
      rcases hval with rfl | rfl | rfl
      · exact ⟨_, pymax_mem
          (fun a b => decide (largestKey (maxSharpness (d :: e :: rest)) b <
            largestKey (maxSharpness (d :: e :: rest)) a)) d (e :: rest),
          by simp [select_primary_subject]⟩
      · exact ⟨_, pymax_mem
          (fun a b => decide (centeredKey (maxSharpness (d :: e :: rest)) b <
            centeredKey (maxSharpness (d :: e :: rest)) a)) d (e :: rest),
          by simp [select_primary_subject]⟩
      · exact ⟨_, pymax_mem
          (fun a b => decide (confKey (maxSharpness (d :: e :: rest)) b <
            confKey (maxSharpness (d :: e :: rest)) a)) d (e :: rest),
          by simp [select_primary_subject]⟩

theorem select_returns_member_witness :
    ∃ d ∈ [dA, dB], select_primary_subject [dA, dB] "centered" = Except.ok (some d) :=
  (select_returns_member [dA, dB] "centered").2.2 (by simp) (Or.inr (Or.inl rfl))

/-- Function `pymax` over a rational key function returns the first element attaining
the maximal key. -/
theorem keyGt_first_argmax (k : Detection → ℚ) (x : Detection) (xs : List Detection) :
    ∃ l₁ l₂, x :: xs = l₁ ++ pymax (fun a b => decide (k b < k a)) x xs :: l₂ ∧
      (∀ y ∈ x :: xs, k y ≤ k (pymax (fun a b => decide (k b < k a)) x xs)) ∧
      (∀ y ∈ l₁, k y < k (pymax (fun a b => decide (k b < k a)) x xs)) := by
  obtain ⟨l₁, l₂, heq, hmax, hfirst⟩ :=
    pymax_first_argmax (fun a b => decide (k b < k a))
      (fun a => by simp)
      (fun a b c h1 h2 => by
        simp only [decide_eq_true_eq] at h1 h2 ⊢
        exact lt_trans h2 h1)
      (fun a b c h1 h2 => by
        simp only [decide_eq_false_iff_not, not_lt] at h1 h2 ⊢
        exact le_trans h1 h2)
      x xs
  refine ⟨l₁, l₂, heq, ?_, ?_⟩
  · intro y hy
    have h := hmax y hy
    simp only [decide_eq_false_iff_not, not_lt] at h
    exact h
  · intro y hy
    have h := hfirst y hy
    simp only [decide_eq_true_eq] at h
    exact h

/-- C10: for lists of two or more detections and a valid strategy, the
selection is the earliest detection in input order among those attaining
the maximal strategy score: no input detection scores strictly higher, and
every detection occurring earlier scores strictly lower. -/
theorem select_first_argmax (dets : List Detection) (strategy : String)
    (h2 : 2 ≤ dets.length)
    (hs : strategy = "largest" ∨ strategy = "centered" ∨ strategy = "highest_confidence") :
    ∃ l₁ r l₂, dets = l₁ ++ r :: l₂ ∧
      select_primary_subject dets strategy = Except.ok (some r) ∧
      (∀ y ∈ dets, scoreKey strategy (maxSharpness dets) y ≤
        scoreKey strategy (maxSharpness dets) r) ∧
      (∀ y ∈ l₁, scoreKey strategy (maxSharpness dets) y <
        scoreKey strategy (maxSharpness dets) r) := by
  match dets with
  | [] => norm_num at h2
  | [d] => norm_num at h2
  | d :: e :: rest =>
    rcases hs with rfl | rfl | rfl
    · obtain ⟨l₁, l₂, heq, hmax, hfirst⟩ :=
        keyGt_first_argmax (largestKey (maxSharpness (d :: e :: rest))) d (e :: rest)
      refine ⟨l₁, _, l₂, heq, by simp [select_primary_subject], ?_, ?_⟩
      · intro y hy
        simpa [scoreKey] using hmax y hy
      · intro y hy
        simpa [scoreKey] using hfirst y hy
    · obtain ⟨l₁, l₂, heq, hmax, hfirst⟩ :=
        keyGt_first_argmax (centeredKey (maxSharpness (d :: e :: rest))) d (e :: rest)
      refine ⟨l₁, _, l₂, heq, by simp [select_primary_subject], ?_, ?_⟩
      · intro y hy
        simpa [scoreKey] using hmax y hy
      · intro y hy
        simpa [scoreKey] using hfirst y hy
    · obtain ⟨l₁, l₂, heq, hmax, hfirst⟩ :=
        keyGt_first_argmax (confKey (maxSharpness (d :: e :: rest))) d (e :: rest)
      refine ⟨l₁, _, l₂, heq, by simp [select_primary_subject], ?_, ?_⟩
      · intro y hy
        simpa [scoreKey] using hmax y hy
      · intro y hy
        simpa [scoreKey] using hfirst y hy

theorem select_first_argmax_witness :
    ∃ l₁ r l₂, ([dA, dB] : List Detection) = l₁ ++ r :: l₂ ∧
      select_primary_subject [dA, dB] "highest_confidence" = Except.ok (some r) ∧
      (∀ y ∈ [dA, dB], scoreKey "highest_confidence" (maxSharpness [dA, dB]) y ≤
        scoreKey "highest_confidence" (maxSharpness [dA, dB]) r) ∧
      (∀ y ∈ l₁, scoreKey "highest_confidence" (maxSharpness [dA, dB]) y <
        scoreKey "highest_confidence" (maxSharpness [dA, dB]) r) :=
  select_first_argmax [dA, dB] "highest_confidence" (by norm_num) (Or.inr (Or.inr rfl))

theorem except_bind_ok {α β : Type} (v : α) (f : α → Except PyErr β) :
    Except.bind (Except.ok v) f = f v := rfl

theorem calc_eq (w h : Int) (bbox : ℚ × ℚ × ℚ × ℚ) (tw th : Int) (p : ℚ)
    (hh : ((h : Int) : ℚ) ≠ 0) (hth : ((th : Int) : ℚ) ≠ 0)
    (hsa : (w : ℚ) / (h : ℚ) ≠ 0) (htar : (tw : ℚ) / (th : ℚ) ≠ 0) :
    calculate_vertical_crop w h bbox (tw, th) p =
      Except.ok (cropPure ((w : ℚ) / (h : ℚ)) ((tw : ℚ) / (th : ℚ)) bbox p) := by
  simp only [calculate_vertical_crop, cropPure, pydiv, if_neg hh, if_neg hth,
    if_neg hsa, if_neg htar, bind, except_bind_ok, pure, Except.pure]
  split_ifs <;> rfl

theorem except_bind_err {α β : Type} (e : PyErr) (f : α → Except PyErr β) :
    Except.bind (Except.error e) f = Except.error e := rfl

theorem clampStart_bounds (c len : ℚ) (h0 : 0 < len) (h1 : len ≤ 1) :
    0 ≤ clampStart c len ∧ clampStart c len + len ≤ 1 := by
  unfold clampStart
  split_ifs with hc hcl
  · constructor <;> linarith
  · constructor <;> linarith
  · constructor <;> linarith

theorem cropPure_invariant (sa tar x1 y1 x2 y2 padding : ℚ)
    (hsa : 0 < sa) (htar : 0 < tar)
    (hx1 : 0 ≤ x1) (hx12 : x1 < x2) (hx2 : x2 ≤ 1)
    (hy1 : 0 ≤ y1) (hy12 : y1 < y2) (hy2 : y2 ≤ 1)
    (hpad : 0 ≤ padding) :
    0 ≤ (cropPure sa tar (x1, y1, x2, y2) padding).left ∧
    (cropPure sa tar (x1, y1, x2, y2) padding).left <
      (cropPure sa tar (x1, y1, x2, y2) padding).right ∧
    (cropPure sa tar (x1, y1, x2, y2) padding).right ≤ 1 ∧
    0 ≤ (cropPure sa tar (x1, y1, x2, y2) padding).top ∧
    (cropPure sa tar (x1, y1, x2, y2) padding).top <
      (cropPure sa tar (x1, y1, x2, y2) padding).bottom ∧
    (cropPure sa tar (x1, y1, x2, y2) padding).bottom ≤ 1 := by
  simp only [cropPure]
  split_ifs with hbr hzoom hover
  · -- vertical target, zoom needed but padding does not fit: width tar/sa
    have hl0 : 0 < 1 * tar / sa := by positivity
    have hl1 : 1 * tar / sa ≤ 1 := by
      rw [one_mul]; exact (div_le_one hsa).mpr hbr.le
    obtain ⟨ha, hb⟩ := clampStart_bounds ((x1 + x2) / 2 - 1 * tar / sa / 2) _ hl0 hl1
    obtain ⟨hc, hd⟩ := clampStart_bounds ((y1 + y2) / 2 - 1 / 2) 1 one_pos le_rfl
    exact ⟨ha, by linarith, by linarith, hc, by linarith, by linarith⟩
  · -- vertical target, zoom to the padded subject width
    have hw0 : 0 < (x2 - x1) * (1 + 2 * padding) := by
      apply mul_pos (by linarith) (by linarith)
    have hw1 : (x2 - x1) * (1 + 2 * padding) ≤ 1 := hzoom.2
    have hh0 : 0 < (x2 - x1) * (1 + 2 * padding) * sa / tar := by positivity
    have hh1 : (x2 - x1) * (1 + 2 * padding) * sa / tar ≤ 1 := le_of_not_lt hover
    obtain ⟨ha, hb⟩ := clampStart_bounds
      ((x1 + x2) / 2 - (x2 - x1) * (1 + 2 * padding) / 2) _ hw0 hw1
    obtain ⟨hc, hd⟩ := clampStart_bounds
      ((y1 + y2) / 2 - (x2 - x1) * (1 + 2 * padding) * sa / tar / 2) _ hh0 hh1
    exact ⟨ha, by linarith, by linarith, hc, by linarith, by linarith⟩
  · -- vertical target, no zoom: width tar/sa, full height
    have hl0 : 0 < 1 * tar / sa := by positivity
    have hl1 : 1 * tar / sa ≤ 1 := by
      rw [one_mul]; exact (div_le_one hsa).mpr hbr.le
    obtain ⟨ha, hb⟩ := clampStart_bounds ((x1 + x2) / 2 - 1 * tar / sa / 2) _ hl0 hl1
    obtain ⟨hc, hd⟩ := clampStart_bounds ((y1 + y2) / 2 - 1 / 2) 1 one_pos le_rfl
    exact ⟨ha, by linarith, by linarith, hc, by linarith, by linarith⟩
  · -- horizontal target with height overflow: impossible when tar ≥ sa > 0
    rename_i hch
    exfalso
    rw [one_mul] at hch
    exact absurd hch (not_lt.mpr ((div_le_one htar).mpr (not_lt.mp hbr)))
  · -- horizontal target: full width, height sa/tar
    rename_i hch
    have hh0 : 0 < 1 * sa / tar := by positivity
    have hh1 : 1 * sa / tar ≤ 1 := le_of_not_lt hch
    obtain ⟨hc, hd⟩ := clampStart_bounds ((y1 + y2) / 2 - 1 * sa / tar / 2) _ hh0 hh1
    refine ⟨le_rfl, by norm_num, le_rfl, hc, by linarith, by linarith⟩

/-- C1: for valid inputs (positive image dimensions, normalized ordered
subject box, positive target aspect pair, non-negative padding) the crop
returned by `calculate_vertical_crop` satisfies
`0 ≤ left < right ≤ 1` and `0 ≤ top < bottom ≤ 1`. -/
theorem crop_invariant_valid (w h : Int) (x1 y1 x2 y2 : ℚ) (tw th : Int)
    (padding : ℚ) (crop : CropRegion)
    (hw : 0 < w) (hh : 0 < h) (htw : 0 < tw) (hth : 0 < th)
    (hx1 : 0 ≤ x1) (hx12 : x1 < x2) (hx2 : x2 ≤ 1)
    (hy1 : 0 ≤ y1) (hy12 : y1 < y2) (hy2 : y2 ≤ 1)
    (hpad : 0 ≤ padding)
    (hcalc : calculate_vertical_crop w h (x1, y1, x2, y2) (tw, th) padding =
      Except.ok crop) :
    0 ≤ crop.left ∧ crop.left < crop.right ∧ crop.right ≤ 1 ∧
      0 ≤ crop.top ∧ crop.top < crop.bottom ∧ crop.bottom ≤ 1 := by
  have hwQ : (0 : ℚ) < (w : ℚ) := by exact_mod_cast hw
  have hhQ : (0 : ℚ) < (h : ℚ) := by exact_mod_cast hh
  have htwQ : (0 : ℚ) < (tw : ℚ) := by exact_mod_cast htw
  have hthQ : (0 : ℚ) < (th : ℚ) := by exact_mod_cast hth
  have hsa : 0 < (w : ℚ) / (h : ℚ) := div_pos hwQ hhQ
  have htar : 0 < (tw : ℚ) / (th : ℚ) := div_pos htwQ hthQ
  rw [calc_eq w h (x1, y1, x2, y2) tw th padding hhQ.ne' hthQ.ne' hsa.ne' htar.ne']
    at hcalc
  injection hcalc with hcrop
  subst hcrop
  exact cropPure_invariant _ _ x1 y1 x2 y2 padding hsa htar hx1 hx12 hx2 hy1 hy12 hy2 hpad

theorem crop_invariant_valid_witness :
    calculate_vertical_crop 6000 4000 (2/5, 3/10, 3/5, 7/10) (4, 5) (3/20) =
      Except.ok ⟨7/30, 23/30, 0, 1⟩ ∧
    (0 ≤ (⟨7/30, 23/30, 0, 1⟩ : CropRegion).left ∧
      (⟨7/30, 23/30, 0, 1⟩ : CropRegion).left < (⟨7/30, 23/30, 0, 1⟩ : CropRegion).right ∧
      (⟨7/30, 23/30, 0, 1⟩ : CropRegion).right ≤ 1 ∧
      0 ≤ (⟨7/30, 23/30, 0, 1⟩ : CropRegion).top ∧
      (⟨7/30, 23/30, 0, 1⟩ : CropRegion).top < (⟨7/30, 23/30, 0, 1⟩ : CropRegion).bottom ∧
      (⟨7/30, 23/30, 0, 1⟩ : CropRegion).bottom ≤ 1) := by
  have hc : calculate_vertical_crop 6000 4000 (2/5, 3/10, 3/5, 7/10) (4, 5) (3/20) =
      Except.ok ⟨7/30, 23/30, 0, 1⟩ := by
    norm_num [calculate_vertical_crop, pydiv, clampStart, bind, except_bind_ok,
      pure, Except.pure]
  refine ⟨hc, ?_⟩
  exact crop_invariant_valid 6000 4000 (2/5) (3/10) (3/5) (7/10) 4 5 (3/20) _
    (by norm_num) (by norm_num) (by norm_num) (by norm_num)
    (by norm_num) (by norm_num) (by norm_num)
    (by norm_num) (by norm_num) (by norm_num) (by norm_num) hc

/-- C6 counterexample: with `image_width = -5 ≤ 0` (and positive height),
`calculate_vertical_crop` raises nothing at all — it returns a (degenerate)
crop region, so non-positive width does not fail with an invalid-argument
error. -/
theorem calc_crop_nonpositive_width_no_error :
    calculate_vertical_crop (-5) 4 (2/5, 3/10, 3/5, 7/10) (4, 5) (3/20) =
      Except.ok { left := 0, right := 1, top := 41/32, bottom := -9/32 } := by
  norm_num [calculate_vertical_crop, pydiv, clampStart, bind, except_bind_ok,
    pure, Except.pure]

/-- C6 (amended): the only failures are `ZeroDivisionError`s from the two
aspect-ratio divisions — `image_height = 0` always raises; non-positive
`image_width` with a positive height and positive target aspect raises
nothing; positive dimensions with a positive target aspect never raise,
whatever the (degenerate) subject box or padding. -/
theorem calc_crop_division_errors_only :
    (∀ (w : Int) (bbox : ℚ × ℚ × ℚ × ℚ) (ta : Int × Int) (p : ℚ),
        calculate_vertical_crop w 0 bbox ta p = Except.error PyErr.zeroDivision) ∧
    (∀ (w h : Int) (bbox : ℚ × ℚ × ℚ × ℚ) (tw th : Int) (p : ℚ),
        w ≤ 0 → 0 < h → 0 < tw → 0 < th →
        ∃ r, calculate_vertical_crop w h bbox (tw, th) p = Except.ok r) ∧
    (∀ (w h : Int) (bbox : ℚ × ℚ × ℚ × ℚ) (tw th : Int) (p : ℚ),
        0 < w → 0 < h → 0 < tw → 0 < th →
        ∃ r, calculate_vertical_crop w h bbox (tw, th) p = Except.ok r) := by
  refine ⟨?_, ?_, ?_⟩
  · intro w bbox ta p
    simp [calculate_vertical_crop, pydiv, bind, except_bind_err]
  · intro w h bbox tw th p hw hh htw hth
    have hwQ : (w : ℚ) ≤ 0 := by exact_mod_cast hw
    have hhQ : (0 : ℚ) < (h : ℚ) := by exact_mod_cast hh
    have htwQ : (0 : ℚ) < (tw : ℚ) := by exact_mod_cast htw
    have hthQ : (0 : ℚ) < (th : ℚ) := by exact_mod_cast hth
    have hsa : (w : ℚ) / (h : ℚ) ≤ 0 := div_nonpos_of_nonpos_of_nonneg hwQ hhQ.le
    have htar : 0 < (tw : ℚ) / (th : ℚ) := div_pos htwQ hthQ
    simp only [calculate_vertical_crop, pydiv, if_neg hhQ.ne', if_neg hthQ.ne',
      if_neg htar.ne', bind, except_bind_ok, pure, Except.pure]
    rw [if_neg (not_lt.mpr (hsa.trans htar.le))]
    rw [if_neg (show ¬(1 : ℚ) < 1 * ((w : ℚ) / (h : ℚ)) / ((tw : ℚ) / (th : ℚ)) from by
      rw [one_mul]
      exact not_lt.mpr (le_trans (div_nonpos_of_nonpos_of_nonneg hsa htar.le) zero_le_one))]
    exact ⟨_, rfl⟩
  · intro w h bbox tw th p hw hh htw hth
    have hwQ : (0 : ℚ) < (w : ℚ) := by exact_mod_cast hw
    have hhQ : (0 : ℚ) < (h : ℚ) := by exact_mod_cast hh
    have htwQ : (0 : ℚ) < (tw : ℚ) := by exact_mod_cast htw
    have hthQ : (0 : ℚ) < (th : ℚ) := by exact_mod_cast hth
    exact ⟨_, calc_eq w h bbox tw th p hhQ.ne' hthQ.ne'
      (div_pos hwQ hhQ).ne' (div_pos htwQ hthQ).ne'⟩

theorem calc_crop_division_errors_only_witness :
    calculate_vertical_crop 7 0 (0, 0, 1, 1) (4, 5) 0 =
      Except.error PyErr.zeroDivision ∧
    (∃ r, calculate_vertical_crop (-5) 4 (0, 0, 1, 1) (4, 5) 0 = Except.ok r) ∧
    (∃ r, calculate_vertical_crop 6000 4000 (0, 0, 1, 1) (4, 5) 0 = Except.ok r) := by
  obtain ⟨h1, h2, h3⟩ := calc_crop_division_errors_only
  exact ⟨h1 7 (0, 0, 1, 1) (4, 5) 0,
    h2 (-5) 4 (0, 0, 1, 1) 4 5 0 (by norm_num) (by norm_num) (by norm_num) (by norm_num),
    h3 6000 4000 (0, 0, 1, 1) 4 5 0 (by norm_num) (by norm_num) (by norm_num) (by norm_num)⟩

theorem process_files_go_no_cancel (imread : String → Option (Int × Int))
    (detect : String → Except String (List Detection))
    (aspect_ratio : Int × Int) (padding : ℚ) (strategy : String)
    (files : List String) (i : Nat) :
    process_files_go imread detect aspect_ratio padding strategy
        (fun _ => false) i files =
      files.map (fun f => process_single_file imread detect f aspect_ratio padding strategy) := by
  induction files generalizing i with
  | nil => rfl
  | cons f rest ih =>
    simp only [process_files_go, Bool.false_eq_true, if_false, List.map_cons]
    exact congrArg _ (ih (i + 1))

/-- C2: with no cancellation, the batch produces exactly one result per
input file, in input order (the list is the map of the per-file pipeline
over the files); and when one file's detection raises, that file's result
has status `"error"` carrying the exception's message while every other
file is still processed. -/
theorem batch_error_isolation (imread : String → Option (Int × Int))
    (detect : String → Except String (List Detection))
    (files : List String) (aspect_ratio : Int × Int) (padding : ℚ)
    (strategy : String) (i : Nat) (f : String) (wh : Int × Int) (m : String)
    (hf : files[i]? = some f) (him : imread f = some wh)
    (hdet : detect f = Except.error m) (hm : m ≠ "") :
    (process_files imread detect (fun _ => false) files aspect_ratio padding strategy).length
        = files.length ∧
    (process_files imread detect (fun _ => false) files aspect_ratio padding strategy =
      files.map (fun g => process_single_file imread detect g aspect_ratio padding strategy)) ∧
    (process_files imread detect (fun _ => false) files aspect_ratio padding strategy)[i]? =
      some { file_path := f, status := "error", error_message := m, image_size := wh } ∧
    (∃ r, (process_files imread detect (fun _ => false) files aspect_ratio padding
        strategy)[i]? = some r ∧ r.status = "error" ∧ r.error_message ≠ "") := by
  have hmap := process_files_go_no_cancel imread detect aspect_ratio padding strategy files 0
  have hlen : (process_files imread detect (fun _ => false) files aspect_ratio padding
      strategy).length = files.length := by
    rw [process_files, hmap, List.length_map]
  have hsingle : process_single_file imread detect f aspect_ratio padding strategy =
      { file_path := f, status := "error", error_message := m, image_size := wh } := by
    rw [process_single_file, him, hdet]
  have hget : (process_files imread detect (fun _ => false) files aspect_ratio padding
      strategy)[i]? =
      some { file_path := f, status := "error", error_message := m, image_size := wh } := by
    rw [process_files, hmap, List.getElem?_map, hf, Option.map_some', hsingle]
  exact ⟨hlen, by rw [process_files, hmap], hget,
    ⟨_, hget, rfl, hm⟩⟩

theorem batch_error_isolation_witness :
    (process_files imread0 detect0 (fun _ => false) ["a.jpg", "b.jpg", "c.jpg"]
        (4, 5) (3/20) "highest_confidence").length = 3 ∧
    (process_files imread0 detect0 (fun _ => false) ["a.jpg", "b.jpg", "c.jpg"]
        (4, 5) (3/20) "highest_confidence")[1]? =
      some { file_path := "b.jpg", status := "error",
             error_message := "detection failed", image_size := (6000, 4000) } := by
  obtain ⟨h1, _, h3, _⟩ := batch_error_isolation imread0 detect0
    ["a.jpg", "b.jpg", "c.jpg"] (4, 5) (3/20) "highest_confidence" 1 "b.jpg"
    (6000, 4000) "detection failed" rfl rfl (by decide) (by decide)
  exact ⟨h1, h3⟩

theorem updNthDesc_spec (f : List (String × String) → List (String × String)) :
    ∀ (t : XmlTree) (cnt k : Nat),
      (updNthDesc f t cnt k).2 = cnt + (xpathDescriptions t).length ∧
      ((cnt ≤ k ∧ k < cnt + (xpathDescriptions t).length) →
        UpdOne f t (updNthDesc f t cnt k).1) ∧
      ((k < cnt ∨ cnt + (xpathDescriptions t).length ≤ k) →
        (updNthDesc f t cnt k).1 = t) := by
  intro t
  induction t with
  | nil =>
    intro cnt k
    refine ⟨by simp [updNthDesc, xpathDescriptions], ?_, fun _ => rfl⟩
    rintro ⟨h1, h2⟩
    simp only [xpathDescriptions, List.length_nil] at h2
    omega
  | comment x sib ih =>
    intro cnt k
    obtain ⟨ih1, ih2, ih3⟩ := ih cnt k
    refine ⟨?_, ?_, ?_⟩
    · simp only [updNthDesc, xpathDescriptions]
      exact ih1
    · intro hin
      simp only [xpathDescriptions] at hin
      simp only [updNthDesc]
      exact UpdOne.csib x sib _ (ih2 hin)
    · intro hout
      simp only [xpathDescriptions] at hout
      simp only [updNthDesc]
      rw [ih3 hout]
  | elem tg a c s ihc ihs =>
    intro cnt k
    by_cases htag : tg = descTag
    · have hxp : (xpathDescriptions (XmlTree.elem tg a c s)).length =
          1 + (xpathDescriptions c).length + (xpathDescriptions s).length := by
        simp [xpathDescriptions, htag]
        omega
      obtain ⟨ihc1, ihc2, ihc3⟩ := ihc (cnt + 1) k
      obtain ⟨ihs1, ihs2, ihs3⟩ :=
        ihs (cnt + 1 + (xpathDescriptions c).length) k
      refine ⟨?_, ?_, ?_⟩
      · simp only [updNthDesc, if_pos htag]
        rw [ihc1, ihs1, hxp]
        omega
      · rintro ⟨hk1, hk2⟩
        rw [hxp] at hk2
        simp only [updNthDesc, if_pos htag]
        by_cases hck : cnt = k
        · have hc_id : (updNthDesc f c (cnt + 1) k).1 = c := ihc3 (by omega)
          have hs_id : (updNthDesc f s (updNthDesc f c (cnt + 1) k).2 k).1 = s := by
            rw [ihc1]; exact ihs3 (by omega)
          rw [if_pos hck, hc_id, hs_id]
          exact UpdOne.here tg a c s htag
        · rw [if_neg hck]
          by_cases hkc : k < cnt + 1 + (xpathDescriptions c).length
          · have hcu : UpdOne f c (updNthDesc f c (cnt + 1) k).1 :=
              ihc2 ⟨by omega, hkc⟩
            have hs_id : (updNthDesc f s (updNthDesc f c (cnt + 1) k).2 k).1 = s := by
              rw [ihc1]; exact ihs3 (by omega)
            rw [hs_id]
            exact UpdOne.child tg a c _ s hcu
          · have hc_id : (updNthDesc f c (cnt + 1) k).1 = c := ihc3 (by omega)
            have hsu : UpdOne f s
                (updNthDesc f s (cnt + 1 + (xpathDescriptions c).length) k).1 :=
              ihs2 ⟨by omega, by omega⟩
            rw [hc_id, ihc1]
            exact UpdOne.sib tg a c s _ hsu
      · intro hout
        rw [hxp] at hout
        simp only [updNthDesc, if_pos htag]
        have hck : ¬cnt = k := by omega
        have hc_id : (updNthDesc f c (cnt + 1) k).1 = c := ihc3 (by omega)
        have hs_id : (updNthDesc f s (updNthDesc f c (cnt + 1) k).2 k).1 = s := by
          rw [ihc1]; exact ihs3 (by omega)
        rw [if_neg hck, hc_id, hs_id]
    · have hxp : (xpathDescriptions (XmlTree.elem tg a c s)).length =
          (xpathDescriptions c).length + (xpathDescriptions s).length := by
        simp [xpathDescriptions, htag]
      obtain ⟨ihc1, ihc2, ihc3⟩ := ihc cnt k
      obtain ⟨ihs1, ihs2, ihs3⟩ := ihs (cnt + (xpathDescriptions c).length) k
      refine ⟨?_, ?_, ?_⟩
      · simp only [updNthDesc, if_neg htag]
        rw [ihc1, ihs1, hxp]
        omega
      · rintro ⟨hk1, hk2⟩
        rw [hxp] at hk2
        simp only [updNthDesc, if_neg htag]
        by_cases hkc : k < cnt + (xpathDescriptions c).length
        · have hcu : UpdOne f c (updNthDesc f c cnt k).1 := ihc2 ⟨hk1, hkc⟩
          have hs_id : (updNthDesc f s (updNthDesc f c cnt k).2 k).1 = s := by
            rw [ihc1]; exact ihs3 (by omega)
          rw [hs_id]
          exact UpdOne.child tg a c _ s hcu
        · have hc_id : (updNthDesc f c cnt k).1 = c := ihc3 (by omega)
          have hsu : UpdOne f s
              (updNthDesc f s (cnt + (xpathDescriptions c).length) k).1 :=
            ihs2 ⟨by omega, by omega⟩
          rw [hc_id, ihc1]
          exact UpdOne.sib tg a c s _ hsu
      · intro hout
        rw [hxp] at hout
        simp only [updNthDesc, if_neg htag]
        have hc_id : (updNthDesc f c cnt k).1 = c := ihc3 (by omega)
        have hs_id : (updNthDesc f s (updNthDesc f c cnt k).2 k).1 = s := by
          rw [ihc1]; exact ihs3 (by omega)
        rw [hc_id, hs_id]

theorem setAttr_lookup_self (l : List (String × String)) (k v : String) :
    (setAttr l k v).lookup k = some v := by
  induction l with
  | nil =>
    rw [setAttr, List.lookup_cons, show (k == k) = true from by simp]
  | cons kv rest ih =>
    obtain ⟨k', v'⟩ := kv
    rw [setAttr]
    by_cases h : k' = k
    · rw [if_pos h, List.lookup_cons, show (k == k) = true from by simp]
    · rw [if_neg h, List.lookup_cons,
        show (k == k') = false from by simpa using Ne.symm h]
      exact ih

theorem setAttr_lookup_other (l : List (String × String)) (k v k' : String)
    (h : k' ≠ k) : (setAttr l k v).lookup k' = l.lookup k' := by
  induction l with
  | nil =>
    rw [setAttr, List.lookup_cons, show (k' == k) = false from by simpa using h]
  | cons kv rest ih =>
    obtain ⟨k₀, v₀⟩ := kv
    rw [setAttr]
    by_cases h0 : k₀ = k
    · rw [if_pos h0, List.lookup_cons, List.lookup_cons,
        show (k' == k) = false from by simpa using h,
        show (k' == k₀) = false from by simpa using (h0 ▸ h : k' ≠ k₀)]
    · rw [if_neg h0, List.lookup_cons, List.lookup_cons]
      by_cases hk : k' = k₀
      · rw [show (k' == k₀) = true from by simpa using hk]
      · rw [show (k' == k₀) = false from by simpa using hk]
        exact ih

theorem findIdx?_lt_length_aux {α : Type} (p : α → Bool) :
    ∀ (l : List α) (i j : Nat), List.findIdx? p l i = some j → j < i + l.length := by
  intro l
  induction l with
  | nil => intro i j h; simp [List.findIdx?] at h
  | cons x xs ih =>
    intro i j h
    simp only [List.findIdx?] at h
    by_cases hp : p x
    · rw [if_pos hp] at h
      injection h with h
      subst h
      simp
    · rw [if_neg hp] at h
      have := ih (i + 1) j h
      simp at this ⊢
      omega

/-- C3: a successful `update_xmp_crop` changes the attribute list of exactly
one `rdf:Description` element (`UpdOne`), leaving every other element,
attribute and comment of the document unchanged; on that element the update
sets exactly the six crop attributes to their formatted values and preserves
the value of every attribute whose name is not one of the six. -/
theorem update_preserves_unrelated (root : XmlTree) (crop : CropRegion)
    (root' : XmlTree)
    (hupd : update_xmp_crop root crop = Except.ok root') :
    UpdOne (setCropAttrs crop) root root' ∧
    (∀ (attrs : List (String × String)) (name : String), name ∉ cropAttrNames →
      (setCropAttrs crop attrs).lookup name = attrs.lookup name) ∧
    (∀ attrs : List (String × String),
      (setCropAttrs crop attrs).lookup (crsName "HasCrop") = some "True" ∧
      (setCropAttrs crop attrs).lookup (crsName "CropTop") = some (fmt6 crop.top) ∧
      (setCropAttrs crop attrs).lookup (crsName "CropLeft") = some (fmt6 crop.left) ∧
      (setCropAttrs crop attrs).lookup (crsName "CropBottom") = some (fmt6 crop.bottom) ∧
      (setCropAttrs crop attrs).lookup (crsName "CropRight") = some (fmt6 crop.right) ∧
      (setCropAttrs crop attrs).lookup (crsName "CropAngle") = some "0") := by
  refine ⟨?_, ?_, ?_⟩
  · rw [update_xmp_crop] at hupd
    split_ifs at hupd with hemp
    injection hupd with hroot
    subst hroot
    have hlen : 0 < (xpathDescriptions root).length := by
      rcases h0 : xpathDescriptions root with _ | ⟨x, xs⟩
      · rw [h0] at hemp; exact absurd rfl hemp
      · simp
    have hk : (((xpathDescriptions root).findIdx? hasCrsAttr).getD 0) <
        (xpathDescriptions root).length := by
      cases hfind : (xpathDescriptions root).findIdx? hasCrsAttr with
      | none => simpa using hlen
      | some j =>
        have := findIdx?_lt_length_aux hasCrsAttr (xpathDescriptions root) 0 j hfind
        simpa using this
    obtain ⟨_, hin, _⟩ := updNthDesc_spec (setCropAttrs crop) root 0
      (((xpathDescriptions root).findIdx? hasCrsAttr).getD 0)
    exact hin ⟨Nat.zero_le _, by simpa using hk⟩
  · intro attrs name hname
    simp only [cropAttrNames, List.mem_cons, List.not_mem_nil, or_false, not_or] at hname
    obtain ⟨h1, h2, h3, h4, h5, h6⟩ := hname
    rw [setCropAttrs,
      setAttr_lookup_other _ _ _ _ h6,
      setAttr_lookup_other _ _ _ _ h5,
      setAttr_lookup_other _ _ _ _ h4,
      setAttr_lookup_other _ _ _ _ h3,
      setAttr_lookup_other _ _ _ _ h2,
      setAttr_lookup_other _ _ _ _ h1]
  · intro attrs
    have nHA : crsName "HasCrop" ≠ crsName "CropAngle" := by decide
    have nHR : crsName "HasCrop" ≠ crsName "CropRight" := by decide
    have nHB : crsName "HasCrop" ≠ crsName "CropBottom" := by decide
    have nHL : crsName "HasCrop" ≠ crsName "CropLeft" := by decide
    have nHT : crsName "HasCrop" ≠ crsName "CropTop" := by decide
    have nTA : crsName "CropTop" ≠ crsName "CropAngle" := by decide
    have nTR : crsName "CropTop" ≠ crsName "CropRight" := by decide
    have nTB : crsName "CropTop" ≠ crsName "CropBottom" := by decide
    have nTL : crsName "CropTop" ≠ crsName "CropLeft" := by decide
    have nLA : crsName "CropLeft" ≠ crsName "CropAngle" := by decide
    have nLR : crsName "CropLeft" ≠ crsName "CropRight" := by decide
    have nLB : crsName "CropLeft" ≠ crsName "CropBottom" := by decide
    have nBA : crsName "CropBottom" ≠ crsName "CropAngle" := by decide
    have nBR : crsName "CropBottom" ≠ crsName "CropRight" := by decide
    have nRA : crsName "CropRight" ≠ crsName "CropAngle" := by decide
    refine ⟨?_, ?_, ?_, ?_, ?_, ?_⟩
    · rw [setCropAttrs, setAttr_lookup_other _ _ _ _ nHA,
        setAttr_lookup_other _ _ _ _ nHR, setAttr_lookup_other _ _ _ _ nHB,
        setAttr_lookup_other _ _ _ _ nHL, setAttr_lookup_other _ _ _ _ nHT,
        setAttr_lookup_self]
    · rw [setCropAttrs, setAttr_lookup_other _ _ _ _ nTA,
        setAttr_lookup_other _ _ _ _ nTR, setAttr_lookup_other _ _ _ _ nTB,
        setAttr_lookup_other _ _ _ _ nTL, setAttr_lookup_self]
    · rw [setCropAttrs, setAttr_lookup_other _ _ _ _ nLA,
        setAttr_lookup_other _ _ _ _ nLR, setAttr_lookup_other _ _ _ _ nLB,
        setAttr_lookup_self]
    · rw [setCropAttrs, setAttr_lookup_other _ _ _ _ nBA,
        setAttr_lookup_other _ _ _ _ nBR, setAttr_lookup_self]
    · rw [setCropAttrs, setAttr_lookup_other _ _ _ _ nRA, setAttr_lookup_self]
    · rw [setCropAttrs, setAttr_lookup_self]

theorem update_preserves_unrelated_witness :
    UpdOne (setCropAttrs crop0) rootEx rootEx' ∧
    (setCropAttrs crop0 [("keep", "me")]).lookup "keep" =
      [("keep", "me")].lookup "keep" := by
  obtain ⟨h1, h2, _⟩ := update_preserves_unrelated rootEx crop0 rootEx' (by rfl)
  exact ⟨h1, h2 [("keep", "me")] "keep" (by decide)⟩

theorem write_crop_to_xmp_none (parseX : String → Except PyErr XmlTree)
    (serializeX : XmlTree → String) (fs : FS) (image_path : String)
    (crop : CropRegion) (output_dir : Option String) (backup : Bool)
    (hfs : fs (get_xmp_path image_path) = none) :
    write_crop_to_xmp parseX serializeX fs image_path crop output_dir backup =
      Except.ok
        (setFile fs (xmpDest image_path output_dir) (create_xmp_from_template crop),
          xmpDest image_path output_dir) := by
  rw [write_crop_to_xmp]
  split
  · rename_i content heq
    rw [hfs] at heq
    cases heq
  · rfl

theorem write_crop_to_xmp_some (parseX : String → Except PyErr XmlTree)
    (serializeX : XmlTree → String) (fs : FS) (image_path : String)
    (crop : CropRegion) (output_dir : Option String) (backup : Bool)
    (content : String) (tree tree' : XmlTree)
    (hfs : fs (get_xmp_path image_path) = some content)
    (hparse : parseX content = Except.ok tree)
    (hupd : update_xmp_crop tree crop = Except.ok tree') :
    write_crop_to_xmp parseX serializeX fs image_path crop output_dir backup =
      Except.ok
        (setFile
          (if backup then setFile fs (get_xmp_path image_path ++ ".bak") content else fs)
          (xmpDest image_path output_dir)
          (if occursSub "<?xpacket" (serializeX tree') then serializeX tree'
            else xpacketHeaderStr ++ serializeX tree' ++ "\n" ++ xpacketFooterStr),
          xmpDest image_path output_dir) := by
  rw [write_crop_to_xmp]
  split
  · rename_i content' heq
    rw [hfs] at heq
    injection heq with heq'
    subst heq'
    simp only [hparse, hupd, bind, except_bind_ok]
  · rename_i heq
    rw [hfs] at heq
    cases heq

set_option maxRecDepth 16384 in
/-- C4 (code bug): with no pre-existing sidecar, writing the same crop to
the same image twice is not byte-idempotent.  The first write stores the raw
template (which starts with the xpacket instruction and has no XML
declaration); the second write parses it and re-serialises through lxml —
whose output starts with the XML declaration (`hdecl`) and contains no
xpacket instruction (`hnopack`) — and then prepends the xpacket wrapper, so
the sidecar bytes after the second write differ from those after the first
at the character following the wrapper line. -/
theorem write_twice_changes_bytes
    (parseX : String → Except PyErr XmlTree) (serializeX : XmlTree → String)
    (t t' : XmlTree)
    (hdecl : ∀ u : XmlTree, ∃ rest : List Char,
      (serializeX u).data = ("<?xml").data ++ rest)
    (hnopack : ∀ u : XmlTree, occursSub "<?xpacket" (serializeX u) = false)
    (hparse : parseX (create_xmp_from_template crop0) = Except.ok t)
    (hupd : update_xmp_crop t crop0 = Except.ok t') :
    ∃ fs1 fs2 c1 c2,
      write_crop_to_xmp parseX serializeX (fun _ => none) "photo.jpg" crop0 none true =
        Except.ok (fs1, "photo.jpg.xmp") ∧
      fs1 "photo.jpg.xmp" = some c1 ∧
      write_crop_to_xmp parseX serializeX fs1 "photo.jpg" crop0 none true =
        Except.ok (fs2, "photo.jpg.xmp") ∧
      fs2 "photo.jpg.xmp" = some c2 ∧
      c2 ≠ c1 := by
  have h1 := write_crop_to_xmp_none parseX serializeX (fun _ => none) "photo.jpg"
    crop0 none true rfl
  have hfs1 : (setFile (fun _ => none) (xmpDest "photo.jpg" none)
      (create_xmp_from_template crop0)) (get_xmp_path "photo.jpg") =
      some (create_xmp_from_template crop0) := by
    rw [setFile,
      if_pos (show get_xmp_path "photo.jpg" = xmpDest "photo.jpg" none from rfl)]
  have h2 := write_crop_to_xmp_some parseX serializeX
    (setFile (fun _ => none) (xmpDest "photo.jpg" none) (create_xmp_from_template crop0))
    "photo.jpg" crop0 none true (create_xmp_from_template crop0) t t' hfs1 hparse hupd
  rw [hnopack t'] at h2
  simp only [eq_self_iff_true, if_true, Bool.false_eq_true, if_false] at h2
  refine ⟨_, _, create_xmp_from_template crop0,
    xpacketHeaderStr ++ serializeX t' ++ "\n" ++ xpacketFooterStr,
    h1, hfs1, h2, ?_, ?_⟩
  · rw [setFile,
      if_pos (show ("photo.jpg.xmp" : String) = xmpDest "photo.jpg" none from rfl)]
  · intro heq
    obtain ⟨rest, hrest⟩ := hdecl t'
    have hchars := congrArg
      (fun s : String => s.data[xpacketHeaderStr.data.length + 1]?) heq
    simp only [String.data_append, hrest] at hchars
    rw [List.append_assoc, List.append_assoc,
      List.getElem?_append_right (by omega : xpacketHeaderStr.data.length ≤
        xpacketHeaderStr.data.length + 1)] at hchars
    simp only [Nat.add_sub_cancel_left] at hchars
    rw [show ((['<', '?', 'x', 'm', 'l'] : List Char) ++ rest ++
        (['\n'] ++ xpacketFooterStr.data)) =
        ['<', '?', 'x', 'm', 'l'] ++ (rest ++ (['\n'] ++ xpacketFooterStr.data))
      from by simp [List.append_assoc],
      List.getElem?_append_left
        (by decide : (1 : Nat) < (['<', '?', 'x', 'm', 'l'] : List Char).length)] at hchars
    have hleft : (['<', '?', 'x', 'm', 'l'] : List Char)[1]? = some '?' := by decide
    have hright : (create_xmp_from_template crop0).data[xpacketHeaderStr.data.length + 1]? =
        some 'x' := by decide
    rw [hleft, hright] at hchars
    cases hchars

set_option maxRecDepth 16384 in
theorem write_twice_changes_bytes_witness :
    ∃ fs1 fs2 c1 c2,
      write_crop_to_xmp parseW serializeW (fun _ => none) "photo.jpg" crop0 none true =
        Except.ok (fs1, "photo.jpg.xmp") ∧
      fs1 "photo.jpg.xmp" = some c1 ∧
      write_crop_to_xmp parseW serializeW fs1 "photo.jpg" crop0 none true =
        Except.ok (fs2, "photo.jpg.xmp") ∧
      fs2 "photo.jpg.xmp" = some c2 ∧
      c2 ≠ c1 :=
  write_twice_changes_bytes parseW serializeW tW tW'
    (fun u => ⟨(" version=\"1.0\" encoding=\"UTF-8\"?>\n<x/>").data, by
      show ("<?xml version=\"1.0\" encoding=\"UTF-8\"?>\n<x/>" : String).data = _
      decide⟩)
    (fun u => by
      show occursSub "<?xpacket" "<?xml version=\"1.0\" encoding=\"UTF-8\"?>\n<x/>" = false
      decide)
    rfl
    (by rfl)

/-- C5 counterexample: calling `write_crop_to_xmp` for a source image that
does not exist on the file system (here the file system is entirely empty)
does not fail with a not-found error — it succeeds, returns the sidecar
path, and silently writes a fresh template sidecar for the nonexistent
source file. -/
theorem write_missing_source_still_writes :
    (write_crop_to_xmp parseW serializeW (fun _ => none) "ghost.jpg" crop0
        none true).isOk = true ∧
    (write_crop_to_xmp parseW serializeW (fun _ => none) "ghost.jpg" crop0
        none true).toOption.map (fun r => r.2) = some "ghost.jpg.xmp" ∧
    (write_crop_to_xmp parseW serializeW (fun _ => none) "ghost.jpg" crop0
        none true).toOption.map (fun r => r.1 "ghost.jpg.xmp") =
      some (some (create_xmp_from_template crop0)) := by
  have h := write_crop_to_xmp_none parseW serializeW (fun _ => none) "ghost.jpg" crop0
    none true rfl
  rw [h]
  exact ⟨rfl, rfl, rfl⟩

/-- C5 (amended): `write_crop_to_xmp` performs no existence check on the
source image path.  Whenever no sidecar exists at the canonical sidecar
path, the call succeeds and writes a fresh template sidecar — in particular
also when the source image itself is absent from the file system. -/
theorem write_no_source_check (parseX : String → Except PyErr XmlTree)
    (serializeX : XmlTree → String) (fs : FS) (image_path : String)
    (crop : CropRegion) (output_dir : Option String) (backup : Bool)
    (hsidecar : fs (get_xmp_path image_path) = none)
    (hsource : fs image_path = none) :
    write_crop_to_xmp parseX serializeX fs image_path crop output_dir backup =
      Except.ok
        (setFile fs (xmpDest image_path output_dir) (create_xmp_from_template crop),
          xmpDest image_path output_dir) :=
  write_crop_to_xmp_none parseX serializeX fs image_path crop output_dir backup hsidecar

theorem write_no_source_check_witness :
    write_crop_to_xmp parseW serializeW (fun _ => none) "ghost.jpg" crop0 none true =
      Except.ok
        (setFile (fun _ => none) (xmpDest "ghost.jpg" none)
          (create_xmp_from_template crop0), xmpDest "ghost.jpg" none) :=
  write_no_source_check parseW serializeW (fun _ => none) "ghost.jpg" crop0 none true
    rfl rfl
